import Mathlib

/-!
# Verification of the PR-to-objective matching engine

A shallow embedding of the matching/classification core of
`apps/falcon-iq-electron-app/src/python/prOKRMapper.py`: feature
extraction (acronyms/keywords), chunking, hybrid scoring, the
score+margin decision gate, the zero-shot fallback, and the
per-document persistence wrapper.

Modelling conventions:
* Python floats become `ℚ` (the claims are algebraic, not about rounding).
* Python sets of strings become `Finset String`.
* External services (the OpenAI embedding endpoint, the tiktoken
  tokenizer, the zero-shot classifier) are parameters:
  - `est : String → ℕ` is `estimate_tokens` (tiktoken, or `len // 4`);
  - `embSim : String → ℕ → ℚ` gives the cosine similarity between the
    embedding of an input text and the (precomputed, normalized)
    embedding of the objective at a given index;
  - the classifier is an `Option (String → Except Unit (String × ℚ))`:
    `none` models a failed lazy initialization (the module-level
    `False` marker), `Except.error` a raising classification call.
* Fallible Python code (`try`/`except`) returns `Except`.
-/

set_option maxRecDepth 4000

namespace PrOkrMapper

/-! ## Configuration constants (module-level defaults in the source) -/

def FALLBACK_LABELS : List String :=
  ["cleanup", "dependency-updates", "refactoring", "no-classification"]

def B_SCORE_THRESHOLD : ℚ := 0.33

def B_MARGIN_THRESHOLD : ℚ := 0.03

def ACRONYM_BOOST_PER_MATCH : ℚ := 0.08

def ACRONYM_BOOST_MAX : ℚ := 0.24

def LEXICAL_WEIGHT : ℚ := 0.12

def EMBED_WEIGHT : ℚ := 0.88

/-! ## Text processing utilities -/

/-- A Python `\w` word character (`re` word boundaries are between `\w`
and non-`\w`); the source only feeds ASCII text through these regexes. -/
def isWordChar (c : Char) : Bool := c.isAlphanum || c == '_'

/-- Maximal runs of word characters of a character list: the only
positions where `\b`-anchored matches of `re.findall` can start/end. -/
def word_runs (l : List Char) : List (List Char) :=
  (l.splitOnP (fun c => !isWordChar c)).filter (fun r => !r.isEmpty)

/-- Whether a whole word run matches `[A-Z][A-Z0-9]{1,9}` (with the
trailing `\b` forcing the match to cover the entire run). -/
def isAcronymToken (r : List Char) : Bool :=
  match r with
  | [] => false
  | c :: rest =>
    c.isUpper && rest.all (fun d => d.isUpper || d.isDigit) &&
      2 ≤ r.length && r.length ≤ 10

/-- `extract_acronyms`: `set(re.findall(r"\b[A-Z][A-Z0-9]{1,9}\b", text))` —
2-10 character all-caps tokens. -/
def extract_acronyms (text : String) : Finset String :=
  (((word_runs text.toList).filter isAcronymToken).map String.mk).toFinset

/-- `tokenize_words`: `set(re.findall(r"[a-z0-9]{3,}", text.lower()))` —
maximal runs of lowercase alphanumerics of length at least 3 in the
lowercased text. -/
def tokenize_words (text : String) : Finset String :=
  ((((text.toList.map Char.toLower).splitOnP
      (fun c => !(c.isLower || c.isDigit))).filter
        (fun r => 3 ≤ r.length)).map String.mk).toFinset

/-- The loop of `chunk_text`: `while i < len(text) and len(chunks) < max_chunks`,
appending `text[i:i+chunk_size]` and stepping `i += chunk_size - overlap`.
The fuel is exactly the remaining chunk budget, so the recursion mirrors the
`len(chunks) < max_chunks` bound (which is what also terminates the Python
loop when the step is not positive).  Nat subtraction `cs - ov` agrees with
Python for the call sites used here (`ov < cs`). -/
def chunk_text_go (t : List Char) (cs ov : ℕ) : ℕ → ℕ → List (List Char)
  | 0, _ => []
  | fuel + 1, i =>
    if i < t.length then
      (t.drop i).take cs :: chunk_text_go t cs ov fuel (i + (cs - ov))
    else []

/-- `chunk_text(text, chunk_size, overlap, max_chunks)`; the source defaults
are `chunk_size=2500, overlap=300, max_chunks=8`. -/
def chunk_text (text : String) (cs ov mc : ℕ) : List String :=
  if text.length ≤ cs then [text]
  else (chunk_text_go text.toList cs ov mc 0).map String.mk

/-- The `len(text) // 4` fallback branch of `estimate_tokens_accurate`
(the tiktoken branch is an external model; both count at most one token
per character). -/
def estimate_tokens_chars (text : String) : ℕ := text.length / 4

/-- `calculate_embedding_cost(tokens, model)`: `$0.13` per million tokens
for models whose name contains `"large"`, `$0.02` otherwise. -/
def calculate_embedding_cost (tokens : ℕ) (model : String) : ℚ :=
  let cost_per_million : ℚ :=
    if "large".toList <:+: model.toList then 0.13 else 0.02
  ((tokens : ℚ) / 1000000) * cost_per_million

/-! ## Hybrid scoring -/

/-- The Jaccard computation inside `hybrid_score`: `0.0` when either set
is falsy, else `len(a & b) / max(1, len(a | b))`. -/
def jaccardQ (a b : Finset String) : ℚ :=
  if a = ∅ ∨ b = ∅ then 0
  else ((a ∩ b).card : ℚ) / ((max 1 (a ∪ b).card : ℕ) : ℚ)

/-- `hybrid_score(embed_sim, pr_words, okr_words, acronym_overlap)`. -/
def hybrid_score (embed_sim : ℚ) (pr_words okr_words : Finset String)
    (acronym_overlap : ℕ) : ℚ :=
  let jacc := jaccardQ pr_words okr_words
  let acronym_boost :=
    min ACRONYM_BOOST_MAX (ACRONYM_BOOST_PER_MATCH * (acronym_overlap : ℚ))
  EMBED_WEIGHT * embed_sim + LEXICAL_WEIGHT * jacc + acronym_boost

/-! ## Numeric list helpers (`np.argmax`, `np.max`, sorted-margin) -/

/-- Maximum of a rational list (`np.max` / max-pooling); `0` for `[]`
(the source only applies it to non-empty lists). -/
def listMax : List ℚ → ℚ
  | [] => 0
  | x :: xs => xs.foldl max x

/-- Fold for `np.argmax`: carries the (index, value) of the first
maximum seen so far; a later value replaces it only when strictly
greater, so the FIRST index attaining the maximum wins, as in numpy. -/
def argmax_go : ℕ → ℕ × ℚ → List ℚ → ℕ × ℚ
  | _, best, [] => best
  | i, best, v :: rest =>
    argmax_go (i + 1) (if best.2 < v then (i, v) else best) rest

/-- `np.argmax` (first index of the maximum; the source never applies it
to an empty array — `main` skips users with an empty objective catalog). -/
def argmax_idx : List ℚ → ℕ
  | [] => 0
  | x :: xs => (argmax_go 1 (0, x) xs).1

/-! ## Precomputed objective catalog and stage-B matching -/

/-- The precomputed per-user objective catalog built by
`precompute_okr_data` (texts plus derived acronym and keyword sets; the
embedding matrix itself lives behind the `embSim` oracle). -/
structure OkrData where
  okr_texts : List String
  okr_acronyms : List (Finset String)
  okr_keywords : List (Finset String)

/-- `precompute_okr_data`: derive acronym and keyword sets per objective. -/
def precompute_okr_data (okr_texts : List String) : OkrData :=
  ⟨okr_texts, okr_texts.map extract_acronyms, okr_texts.map tokenize_words⟩

/-- The candidate-filtering block of `stage_b_enhanced_match`: strong
acronyms are those of length at most 8; when some exist and at least one
objective shares one, scoring is restricted to those hit indices and the
`was_filtered` flag is set. -/
def stage_b_candidates (pr_text : String) (okr : OkrData) : List ℕ × Bool :=
  let strong := (extract_acronyms pr_text).filter (fun a => a.length ≤ 8)
  let hits := (List.range okr.okr_acronyms.length).filter
    (fun j => 0 < ((okr.okr_acronyms.getD j ∅) ∩ strong).card)
  if strong.Nonempty ∧ hits ≠ [] then (hits, true)
  else (List.range okr.okr_texts.length, false)

/-- The input texts that `get_pr_embeddings_with_chunking` sends to the
embedding endpoint (one batched call): the text truncated to 30000
characters when the token estimate is within the 8000-token limit,
otherwise overlapping chunks (`chunk_size=7000` characters,
`overlap=300`, `max_chunks=4`). -/
def get_pr_embeddings_with_chunking_texts (est : String → ℕ)
    (pr_text : String) : List String :=
  if est pr_text ≤ 8000 then [String.mk (pr_text.toList.take 30000)]
  else chunk_text pr_text 7000 300 4

/-- Result tuple of `stage_b_enhanced_match`
`(best_okr_idx, best_score, margin, was_filtered, tokens_used, cost)`.
The fields `candidates` (the indices actually scored) and `sims` (the
per-candidate max-pooled similarity fed to `hybrid_score`) are not part
of the source's return tuple; they are recorded here so the
specification can speak about the scored set. -/
structure StageBResult where
  best_okr_idx : ℕ
  best_score : ℚ
  margin : ℚ
  was_filtered : Bool
  tokens_used : ℕ
  cost : ℚ
  candidates : List ℕ
  sims : List ℚ

/-- The `max_sims` array of `stage_b_enhanced_match`: for each candidate
index, the maximum over the embedded texts of the cosine similarity
against that objective (`sims.max(axis=0)` when several chunks were
embedded, the single row otherwise — both are the maximum over the
non-empty chunk list). -/
def stage_b_max_sims (est : String → ℕ) (embSim : String → ℕ → ℚ)
    (pr_text : String) (okr : OkrData) : List ℚ :=
  (stage_b_candidates pr_text okr).1.map
    (fun j => listMax ((get_pr_embeddings_with_chunking_texts est pr_text).map
      (fun c => embSim c j)))

/-- The `hybrid_scores` array of `stage_b_enhanced_match`: one hybrid
score per candidate index. -/
def stage_b_scores (est : String → ℕ) (embSim : String → ℕ → ℚ)
    (pr_text : String) (okr : OkrData) : List ℚ :=
  ((stage_b_candidates pr_text okr).1.zip
      (stage_b_max_sims est embSim pr_text okr)).map
    (fun p => hybrid_score p.2 (tokenize_words pr_text)
      (okr.okr_keywords.getD p.1 ∅)
      ((extract_acronyms pr_text ∩ (okr.okr_acronyms.getD p.1 ∅)).card))

/-- The margin computation of `stage_b_enhanced_match`:
`sorted_scores[0] - sorted_scores[1]` when more than one candidate was
scored (erasing one occurrence of the best score leaves the second-best),
`1.0` otherwise. -/
def stage_b_margin (hybrid_scores : List ℚ) (best_score : ℚ) : ℚ :=
  if 1 < hybrid_scores.length then
    best_score - listMax (hybrid_scores.erase best_score)
  else 1

/-- `stage_b_enhanced_match(pr_text, okr_data, openai_api_key, ...)`, the
OpenAI-embedding branch (`openai_api_key` present and objective
embeddings precomputed).  `embSim c j` stands for
`cosine_similarity(embed(c), okr_embeddings[j])`. -/
def stage_b_enhanced_match (est : String → ℕ) (embSim : String → ℕ → ℚ)
    (pr_text : String) (okr : OkrData) : StageBResult :=
  let candidate_indices := (stage_b_candidates pr_text okr).1
  let was_filtered := (stage_b_candidates pr_text okr).2
  let pr_tokens := est (String.mk (pr_text.toList.take 30000))
  let okr_tokens := (candidate_indices.map
    (fun i => est (okr.okr_texts.getD i ""))).sum
  let tokens_used := pr_tokens + okr_tokens
  let cost := calculate_embedding_cost tokens_used "text-embedding-3-large"
  let hybrid_scores := stage_b_scores est embSim pr_text okr
  let best_k := argmax_idx hybrid_scores
  let best_okr_idx := candidate_indices.getD best_k 0
  let best_score := hybrid_scores.getD best_k 0
  ⟨best_okr_idx, best_score, stage_b_margin hybrid_scores best_score,
    was_filtered, tokens_used, cost, candidate_indices,
    stage_b_max_sims est embSim pr_text okr⟩

/-! ## Fallback classification and per-document classification -/

/-- `classify_fallback(pr_text)`: run the zero-shot classifier on the
text truncated to 4000 characters; if the classifier failed to load
(`none`) or the call raises (`Except.error`), return the deterministic
default `("no-classification", 1.0)`.  The Lean function is total: no
exception escapes. -/
def classify_fallback (classifier : Option (String → Except Unit (String × ℚ)))
    (pr_text : String) : String × ℚ :=
  match classifier with
  | none => ("no-classification", 1)
  | some f =>
    match f (String.mk (pr_text.toList.take 4000)) with
    | Except.ok r => r
    | Except.error _ => ("no-classification", 1)

/-- The result dictionary of `classify_one_pr`. -/
structure Classification where
  label : String
  confidence : ℚ
  classification_type : String
  method : String
  okr_idx : Option ℕ
  margin : ℚ
  tokens : ℕ
  cost : ℚ

/-- Number of external calls made while classifying one document:
the embedding endpoint (`client.embeddings.create`) and the zero-shot
classifier. -/
structure CallLog where
  embed_calls : ℕ
  classifier_calls : ℕ
deriving DecidableEq

/-- `classify_one_pr(pr_text, okr_data, openai_api_key, score_threshold,
margin_threshold)` (defaults `0.33` / `0.03`), paired with the calls it
makes: empty/whitespace text short-circuits with zero calls; otherwise
stage B issues exactly one batched `embeddings.create` call, and the
fallback branch makes one classifier call when the classifier loaded. -/
def classify_one_pr (est : String → ℕ) (embSim : String → ℕ → ℚ)
    (classifier : Option (String → Except Unit (String × ℚ)))
    (pr_text : String) (okr : OkrData)
    (score_threshold margin_threshold : ℚ) : Classification × CallLog :=
  -- `if not pr_text or not pr_text.strip()`: the text is empty or
  -- consists only of whitespace characters.
  if pr_text.toList.all Char.isWhitespace then
    (⟨"no-classification", 1, "fallback", "empty", none, 0, 0, 0⟩, ⟨0, 0⟩)
  else
    let r := stage_b_enhanced_match est embSim pr_text okr
    if score_threshold ≤ r.best_score ∧ margin_threshold ≤ r.margin then
      (⟨okr.okr_texts.getD r.best_okr_idx "", r.best_score, "okr",
        if r.was_filtered then "stage_b_filtered=True_openai"
        else "stage_b_filtered=False_openai",
        some r.best_okr_idx, r.margin, r.tokens_used, r.cost⟩, ⟨1, 0⟩)
    else
      let fc := classify_fallback classifier pr_text
      (⟨fc.1, fc.2, "fallback", "zero_shot", none, r.margin,
        r.tokens_used, r.cost⟩,
       ⟨1, match classifier with | none => 0 | some _ => 1⟩)

/-! ## Per-document persistence wrapper -/

/-- The `result` dictionary returned by
`map_okrs_for_pr_with_classification`. -/
structure MapResult where
  success : Bool
  classification_type : Option String
  category : Option String
  tokens : ℕ
  cost : ℚ

/-- `map_okrs_for_pr_with_classification`: load the document text,
bail out (`success=False`) when it is missing or shorter than 10
characters, classify, persist via `save_classification_result`, and
catch every exception into a `success=False` result.  The second
component is what gets persisted to `okrs_{username}.csv`: `none` means
no record was written.  `load_pr_text` failures and classification
failures (provider errors propagating out of `classify_one_pr`) are the
`Except.error` cases. -/
def map_okrs_for_pr_with_classification :
    Except Unit String → (String → Except Unit Classification) →
    MapResult × Option Classification
  | Except.error _, _ => (⟨false, none, none, 0, 0⟩, none)
  | Except.ok pr_text, classify =>
    if pr_text = "" ∨ pr_text.length < 10 then
      (⟨false, none, none, 0, 0⟩, none)
    else
      match classify pr_text with
      | Except.error _ => (⟨false, none, none, 0, 0⟩, none)
      | Except.ok c =>
        (⟨true, some c.classification_type,
          if c.classification_type = "fallback" then some c.label else none,
          c.tokens, c.cost⟩, some c)

/-! ## Lemmas about `listMax` and `argmax_idx` -/

theorem foldl_max_le_init (xs : List ℚ) : ∀ b : ℚ, b ≤ xs.foldl max b := by
  induction xs with
  | nil => intro b; simp
  | cons v rest ih =>
    intro b
    simp only [List.foldl_cons]
    exact le_trans (le_max_left b v) (ih (max b v))

theorem mem_le_foldl_max (xs : List ℚ) :
    ∀ (b a : ℚ), a ∈ xs → a ≤ xs.foldl max b := by
  induction xs with
  | nil => intro b a h; cases h
  | cons v rest ih =>
    intro b a h
    simp only [List.foldl_cons]
    rcases List.mem_cons.mp h with h1 | h2
    · subst h1; exact le_trans (le_max_right b a) (foldl_max_le_init rest _)
    · exact ih _ a h2

theorem foldl_max_mem (xs : List ℚ) :
    ∀ b : ℚ, xs.foldl max b = b ∨ xs.foldl max b ∈ xs := by
  induction xs with
  | nil => intro b; left; rfl
  | cons v rest ih =>
    intro b
    simp only [List.foldl_cons]
    rcases ih (max b v) with h | h
    · rcases max_choice b v with h2 | h2
      · left; rw [h, h2]
      · right; rw [h, h2]; exact List.mem_cons_self v rest
    · right; exact List.mem_cons_of_mem v h

theorem le_listMax_of_mem {l : List ℚ} {a : ℚ} (h : a ∈ l) : a ≤ listMax l := by
  cases l with
  | nil => cases h
  | cons x xs =>
    show a ≤ xs.foldl max x
    rcases List.mem_cons.mp h with h1 | h2
    · subst h1; exact foldl_max_le_init xs a
    · exact mem_le_foldl_max xs x a h2

theorem listMax_mem {l : List ℚ} (h : l ≠ []) : listMax l ∈ l := by
  cases l with
  | nil => exact absurd rfl h
  | cons x xs =>
    show xs.foldl max x ∈ x :: xs
    rcases foldl_max_mem xs x with h1 | h1
    · rw [h1]; exact List.mem_cons_self x xs
    · exact List.mem_cons_of_mem x h1

theorem argmax_go_snd (xs : List ℚ) :
    ∀ (i : ℕ) (b : ℕ × ℚ), (argmax_go i b xs).2 = xs.foldl max b.2 := by
  induction xs with
  | nil => intros; rfl
  | cons v rest ih =>
    intro i b
    simp only [argmax_go, List.foldl_cons]
    rw [ih]
    congr 1
    by_cases h : b.2 < v
    · simp only [if_pos h]; exact (max_eq_right h.le).symm
    · simp only [if_neg h]; exact (max_eq_left (not_lt.mp h)).symm

theorem argmax_go_getD (xs : List ℚ) :
    ∀ (l : List ℚ) (i : ℕ) (b : ℕ × ℚ),
    l.getD b.1 0 = b.2 → (∀ j, j < xs.length → xs.getD j 0 = l.getD (i + j) 0) →
    l.getD (argmax_go i b xs).1 0 = (argmax_go i b xs).2 := by
  induction xs with
  | nil => intro l i b hb _; exact hb
  | cons v rest ih =>
    intro l i b hb hoff
    simp only [argmax_go]
    apply ih
    · by_cases h : b.2 < v
      · simp only [if_pos h]
        have h0 := hoff 0 (by simp)
        simpa using h0.symm
      · simpa [if_neg h] using hb
    · intro j hj
      have hsucc := hoff (j + 1) (by simpa using Nat.succ_lt_succ hj)
      rw [List.getD_cons_succ] at hsucc
      have harith : i + (j + 1) = i + 1 + j := by omega
      rw [harith] at hsucc
      exact hsucc

theorem argmax_go_fst_lt (xs : List ℚ) :
    ∀ (i : ℕ) (b : ℕ × ℚ), b.1 < i → (argmax_go i b xs).1 < i + xs.length := by
  induction xs with
  | nil => intro i b h; simpa using h
  | cons v rest ih =>
    intro i b h
    simp only [argmax_go]
    have h' : (if b.2 < v then (i, v) else b).1 < i + 1 := by
      by_cases hc : b.2 < v
      · simp [hc]
      · simp only [if_neg hc]; omega
    have hrec := ih (i + 1) _ h'
    simp only [List.length_cons]
    omega

theorem argmax_idx_lt_length {l : List ℚ} (h : l ≠ []) :
    argmax_idx l < l.length := by
  cases l with
  | nil => exact absurd rfl h
  | cons x xs =>
    have hlt := argmax_go_fst_lt xs 1 (0, x) (by norm_num)
    simp only [argmax_idx, List.length_cons]
    omega

theorem getD_argmax_eq_listMax {l : List ℚ} (h : l ≠ []) :
    l.getD (argmax_idx l) 0 = listMax l := by
  cases l with
  | nil => exact absurd rfl h
  | cons x xs =>
    have h1 := argmax_go_getD xs (x :: xs) 1 (0, x) (by simp)
      (fun j _ => by rw [Nat.add_comm 1 j]; simp)
    show (x :: xs).getD (argmax_go 1 (0, x) xs).1 0 = xs.foldl max x
    rw [h1, argmax_go_snd]

theorem margin_formula_nonneg (scores : List ℚ) :
    0 ≤ stage_b_margin scores (scores.getD (argmax_idx scores) 0) := by
  unfold stage_b_margin
  by_cases h : 1 < scores.length
  · rw [if_pos h]
    have hne : scores ≠ [] := by
      intro he; rw [he] at h; simp at h
    rw [getD_argmax_eq_listMax hne]
    have hmem : listMax scores ∈ scores := listMax_mem hne
    have hlen : (scores.erase (listMax scores)).length = scores.length - 1 :=
      List.length_erase_of_mem hmem
    have herne : scores.erase (listMax scores) ≠ [] := by
      intro he; rw [he] at hlen; simp at hlen; omega
    have hle : listMax (scores.erase (listMax scores)) ≤ listMax scores :=
      le_listMax_of_mem (List.mem_of_mem_erase (listMax_mem herne))
    linarith
  · rw [if_neg h]; norm_num

/-- The margin reported by stage B is always non-negative (and `1.0`
with at most one scored candidate). -/
theorem stage_b_margin_nonneg (est : String → ℕ) (embSim : String → ℕ → ℚ)
    (pr_text : String) (okr : OkrData) :
    0 ≤ (stage_b_enhanced_match est embSim pr_text okr).margin :=
  margin_formula_nonneg (stage_b_scores est embSim pr_text okr)

/-! ## Claim theorems -/

/-- C2: for every embedding similarity `s`, document keyword set `D`,
objective keyword set `O` and acronym-overlap count `n`,
`hybrid_score s D O n = 0.88*s + 0.12*J + min(0.24, 0.08*n)` where
`J = |D ∩ O| / |D ∪ O|` when both sets are non-empty and `J = 0`
otherwise, the four constants being the configurable defaults. -/
theorem c2_hybrid_score_formula (s : ℚ) (D O : Finset String) (n : ℕ) :
    hybrid_score s D O n =
      0.88 * s
      + 0.12 * (if D = ∅ ∨ O = ∅ then 0
          else ((D ∩ O).card : ℚ) / ((D ∪ O).card : ℚ))
      + min 0.24 (0.08 * (n : ℚ)) := by
  simp only [hybrid_score, jaccardQ, EMBED_WEIGHT, LEXICAL_WEIGHT,
    ACRONYM_BOOST_MAX, ACRONYM_BOOST_PER_MATCH]
  by_cases h : D = ∅ ∨ O = ∅
  · rw [if_pos h, if_pos h]
  · rw [if_neg h, if_neg h]
    have hD : D.Nonempty := Finset.nonempty_iff_ne_empty.mpr
      (fun hd => h (Or.inl hd))
    have hcard : 1 ≤ (D ∪ O).card :=
      Finset.card_pos.mpr (hD.mono Finset.subset_union_left)
    rw [max_eq_right hcard]

/-- C9: `hybrid_score` is monotone non-decreasing in the embedding
similarity, in the lexical (Jaccard) overlap, and in the acronym-match
count. -/
theorem c9_hybrid_score_monotone (s s' : ℚ) (D O D' O' : Finset String)
    (n n' : ℕ) (hs : s ≤ s') (hj : jaccardQ D O ≤ jaccardQ D' O')
    (hn : n ≤ n') :
    hybrid_score s D O n ≤ hybrid_score s' D' O' n' := by
  simp only [hybrid_score]
  have h1 : EMBED_WEIGHT * s ≤ EMBED_WEIGHT * s' :=
    mul_le_mul_of_nonneg_left hs (by norm_num [EMBED_WEIGHT])
  have h2 : LEXICAL_WEIGHT * jaccardQ D O ≤ LEXICAL_WEIGHT * jaccardQ D' O' :=
    mul_le_mul_of_nonneg_left hj (by norm_num [LEXICAL_WEIGHT])
  have h3 : min ACRONYM_BOOST_MAX (ACRONYM_BOOST_PER_MATCH * (n : ℚ))
      ≤ min ACRONYM_BOOST_MAX (ACRONYM_BOOST_PER_MATCH * (n' : ℚ)) := by
    refine min_le_min le_rfl ?_
    have hq : (n : ℚ) ≤ (n' : ℚ) := by exact_mod_cast hn
    exact mul_le_mul_of_nonneg_left hq (by norm_num [ACRONYM_BOOST_PER_MATCH])
  linarith

/-- Witness for C9 at a concrete input. -/
theorem c9_hybrid_score_monotone_witness :
    hybrid_score 0 ∅ ∅ 0 ≤ hybrid_score 1 ∅ ∅ 1 :=
  c9_hybrid_score_monotone 0 1 ∅ ∅ ∅ ∅ 0 1 (by norm_num) le_rfl (by norm_num)

/-- C6: `classify_fallback` never raises; if the zero-shot classifier
failed to initialize (`none`) or its classification call raises on the
truncated text, the result is the deterministic default
`("no-classification", 1.0)`.  (Totality of the Lean function mirrors
the `try`/`except` wrapping in the source.) -/
theorem c6_classify_fallback_default
    (f : String → Except Unit (String × ℚ)) (t : String)
    (h : f (String.mk (t.toList.take 4000)) = Except.error ()) :
    classify_fallback none t = ("no-classification", 1) ∧
    classify_fallback (some f) t = ("no-classification", 1) := by
  refine ⟨rfl, ?_⟩
  simp only [classify_fallback]
  rw [h]

/-- Witness for C6 at a concrete input. -/
theorem c6_classify_fallback_default_witness :
    classify_fallback none "update deps" = ("no-classification", 1) ∧
    classify_fallback (some (fun _ => Except.error ())) "update deps"
      = ("no-classification", 1) :=
  c6_classify_fallback_default (fun _ => Except.error ()) "update deps" rfl

/-- C7: empty or whitespace-only document text short-circuits to the
fallback default: label `"no-classification"`, confidence `1.0`,
`tokens = 0`, `cost = 0.0`, and zero embedding-provider and zero
zero-shot-classifier calls. -/
theorem c7_empty_text_short_circuits (est : String → ℕ)
    (embSim : String → ℕ → ℚ)
    (classifier : Option (String → Except Unit (String × ℚ)))
    (okr : OkrData) (st mt : ℚ) (pr_text : String)
    (h : pr_text.toList.all Char.isWhitespace = true) :
    classify_one_pr est embSim classifier pr_text okr st mt =
      (⟨"no-classification", 1, "fallback", "empty", none, 0, 0, 0⟩,
       ⟨0, 0⟩) := by
  unfold classify_one_pr
  rw [if_pos h]

/-- Witness for C7 at a concrete input (whitespace-only text). -/
theorem c7_empty_text_short_circuits_witness :
    "   ".toList.all Char.isWhitespace = true ∧
    classify_one_pr estimate_tokens_chars (fun _ _ => 0) none "   "
        (precompute_okr_data ["ship the migration"]) B_SCORE_THRESHOLD
        B_MARGIN_THRESHOLD =
      (⟨"no-classification", 1, "fallback", "empty", none, 0, 0, 0⟩,
       ⟨0, 0⟩) :=
  ⟨by decide,
   c7_empty_text_short_circuits estimate_tokens_chars (fun _ _ => 0) none
     (precompute_okr_data ["ship the migration"]) B_SCORE_THRESHOLD
     B_MARGIN_THRESHOLD "   " (by decide)⟩

/-- C1: for non-empty document text and a non-empty precomputed
objective catalog, `classify_one_pr` returns an objective match
(`classification_type = "okr"`) iff the best hybrid score reaches
`score_threshold` and the margin reaches `margin_threshold` (the margin
being best minus second-best hybrid score, `1.0` with a single
candidate, as computed by `stage_b_enhanced_match`); the result is
always either an objective match or a fallback classification. -/
theorem c1_threshold_gate (est : String → ℕ) (embSim : String → ℕ → ℚ)
    (classifier : Option (String → Except Unit (String × ℚ)))
    (pr_text : String) (okr : OkrData) (st mt : ℚ)
    (h1 : ¬ pr_text.toList.all Char.isWhitespace = true)
    (_hcat : okr.okr_texts ≠ []) :
    ((classify_one_pr est embSim classifier pr_text okr st mt).1.classification_type
        = "okr"
      ↔ st ≤ (stage_b_enhanced_match est embSim pr_text okr).best_score ∧
        mt ≤ (stage_b_enhanced_match est embSim pr_text okr).margin) ∧
    ((classify_one_pr est embSim classifier pr_text okr st mt).1.classification_type
        = "okr" ∨
     (classify_one_pr est embSim classifier pr_text okr st mt).1.classification_type
        = "fallback") := by
  simp only [classify_one_pr]
  rw [if_neg h1]
  by_cases hc : st ≤ (stage_b_enhanced_match est embSim pr_text okr).best_score ∧
      mt ≤ (stage_b_enhanced_match est embSim pr_text okr).margin
  · rw [if_pos hc]
    exact ⟨⟨fun _ => hc, fun _ => rfl⟩, Or.inl rfl⟩
  · rw [if_neg hc]
    exact ⟨⟨fun hok => absurd (show "fallback" = "okr" from hok) (by decide),
      fun hcond => absurd hcond hc⟩, Or.inr rfl⟩

/-- Witness for C1 at a concrete input: a document identical to the
single objective is accepted as an objective match. -/
theorem c1_threshold_gate_witness :
    (¬ "alpha beta gamma".toList.all Char.isWhitespace = true) ∧
    (precompute_okr_data ["alpha beta gamma"]).okr_texts ≠ [] ∧
    ((classify_one_pr estimate_tokens_chars (fun _ _ => 1) none
        "alpha beta gamma" (precompute_okr_data ["alpha beta gamma"])
        B_SCORE_THRESHOLD B_MARGIN_THRESHOLD).1.classification_type = "okr"
      ↔ B_SCORE_THRESHOLD ≤ (stage_b_enhanced_match estimate_tokens_chars
            (fun _ _ => 1) "alpha beta gamma"
            (precompute_okr_data ["alpha beta gamma"])).best_score ∧
        B_MARGIN_THRESHOLD ≤ (stage_b_enhanced_match estimate_tokens_chars
            (fun _ _ => 1) "alpha beta gamma"
            (precompute_okr_data ["alpha beta gamma"])).margin) :=
  ⟨by decide, by decide,
   (c1_threshold_gate estimate_tokens_chars (fun _ _ => 1) none
     "alpha beta gamma" (precompute_okr_data ["alpha beta gamma"])
     B_SCORE_THRESHOLD B_MARGIN_THRESHOLD (by decide) (by decide)).1⟩

/-- The fallback confidence is non-negative whenever the classifier's
own scores are (zero-shot probabilities lie in `[0,1]`). -/
theorem classify_fallback_conf_nonneg
    (classifier : Option (String → Except Unit (String × ℚ))) (t : String)
    (hcl : ∀ f s r, classifier = some f → f s = Except.ok r → 0 ≤ r.2) :
    0 ≤ (classify_fallback classifier t).2 := by
  cases classifier with
  | none => show (0 : ℚ) ≤ 1; norm_num
  | some f =>
    simp only [classify_fallback]
    cases hres : f (String.mk (t.toList.take 4000)) with
    | ok r => exact hcl f _ r rfl hres
    | error e => show (0 : ℚ) ≤ 1; norm_num

/-- C3 (amended): the margin and confidence of every classification
result are non-negative, provided the score threshold is non-negative
and the external classifier reports non-negative confidences.  The
original upper bound `≤ 1` fails: the acronym boost can push an accepted
score — and hence the reported confidence — above `1`, and a
negative-similarity runner-up can push the margin above `1` (see the
counterexample). -/
theorem c3_margin_confidence_nonneg (est : String → ℕ)
    (embSim : String → ℕ → ℚ)
    (classifier : Option (String → Except Unit (String × ℚ)))
    (pr_text : String) (okr : OkrData) (st mt : ℚ)
    (hst : 0 ≤ st)
    (hcl : ∀ f s r, classifier = some f → f s = Except.ok r → 0 ≤ r.2) :
    0 ≤ (classify_one_pr est embSim classifier pr_text okr st mt).1.margin ∧
    0 ≤ (classify_one_pr est embSim classifier pr_text okr st mt).1.confidence := by
  simp only [classify_one_pr]
  by_cases he : pr_text.toList.all Char.isWhitespace = true
  · rw [if_pos he]
    exact ⟨le_refl 0, by norm_num⟩
  · rw [if_neg he]
    by_cases hc : st ≤ (stage_b_enhanced_match est embSim pr_text okr).best_score ∧
        mt ≤ (stage_b_enhanced_match est embSim pr_text okr).margin
    · rw [if_pos hc]
      exact ⟨stage_b_margin_nonneg est embSim pr_text okr, le_trans hst hc.1⟩
    · rw [if_neg hc]
      exact ⟨stage_b_margin_nonneg est embSim pr_text okr,
        classify_fallback_conf_nonneg classifier pr_text hcl⟩

/-- Witness for the amended C3 at a concrete input. -/
theorem c3_margin_confidence_nonneg_witness :
    0 ≤ B_SCORE_THRESHOLD ∧
    0 ≤ (classify_one_pr estimate_tokens_chars (fun _ _ => 0) none
        "hello world" (precompute_okr_data ["goal"]) B_SCORE_THRESHOLD
        B_MARGIN_THRESHOLD).1.margin ∧
    0 ≤ (classify_one_pr estimate_tokens_chars (fun _ _ => 0) none
        "hello world" (precompute_okr_data ["goal"]) B_SCORE_THRESHOLD
        B_MARGIN_THRESHOLD).1.confidence :=
  ⟨by norm_num [B_SCORE_THRESHOLD],
   (c3_margin_confidence_nonneg estimate_tokens_chars (fun _ _ => 0) none
     "hello world" (precompute_okr_data ["goal"]) B_SCORE_THRESHOLD
     B_MARGIN_THRESHOLD (by norm_num [B_SCORE_THRESHOLD])
     (fun f s r hf => by cases hf)).1,
   (c3_margin_confidence_nonneg estimate_tokens_chars (fun _ _ => 0) none
     "hello world" (precompute_okr_data ["goal"]) B_SCORE_THRESHOLD
     B_MARGIN_THRESHOLD (by norm_num [B_SCORE_THRESHOLD])
     (fun f s r hf => by cases hf)).2⟩

/-! ## Candidate pruning (C8) -/

/-- The spec's description of the document's strong acronym set `S`:
extracted acronyms of length at most 8. -/
def spec_strong_acronyms (pr_text : String) : Finset String :=
  (extract_acronyms pr_text).filter (fun a => a.length ≤ 8)

/-- The spec's description of the pruned candidate set: the objective
indices whose acronym set intersects the document's strong acronym
set. -/
def spec_acronym_hits (pr_text : String) (texts : List String) : List ℕ :=
  (List.range texts.length).filter
    (fun j => ((extract_acronyms (texts.getD j "")) ∩
      spec_strong_acronyms pr_text).Nonempty)

theorem getD_map_extract (texts : List String) (j : ℕ)
    (hj : j < texts.length) :
    (texts.map extract_acronyms).getD j ∅ = extract_acronyms (texts.getD j "") := by
  rw [List.getD_eq_getElem?_getD, List.getD_eq_getElem?_getD,
    List.getElem?_map, List.getElem?_eq_getElem hj]
  rfl

/-- The filtering block of `stage_b_enhanced_match` computes exactly the
spec's pruned candidate set (and records whether pruning applied). -/
theorem stage_b_candidates_spec (pr_text : String) (texts : List String) :
    stage_b_candidates pr_text (precompute_okr_data texts) =
      (if (spec_strong_acronyms pr_text).Nonempty ∧
          spec_acronym_hits pr_text texts ≠ []
       then spec_acronym_hits pr_text texts
       else List.range texts.length,
       decide ((spec_strong_acronyms pr_text).Nonempty ∧
          spec_acronym_hits pr_text texts ≠ [])) := by
  have hfilter : (List.range texts.length).filter
      (fun j => decide (0 < (((texts.map extract_acronyms).getD j ∅) ∩
        spec_strong_acronyms pr_text).card)) = spec_acronym_hits pr_text texts := by
    unfold spec_acronym_hits
    refine List.filter_congr ?_
    intro j hj
    rw [getD_map_extract texts j (List.mem_range.mp hj)]
    exact decide_eq_decide.mpr Finset.card_pos
  simp only [stage_b_candidates, precompute_okr_data, List.length_map]
  rw [show Finset.filter (fun a => a.length ≤ 8) (extract_acronyms pr_text) =
    spec_strong_acronyms pr_text from rfl]
  rw [hfilter]
  by_cases hcond : (spec_strong_acronyms pr_text).Nonempty ∧
      spec_acronym_hits pr_text texts ≠ []
  · rw [if_pos hcond, if_pos hcond, decide_eq_true hcond]
  · rw [if_neg hcond, if_neg hcond]
    simp only [decide_eq_false hcond]

theorem getD_nat_mem {l : List ℕ} {k : ℕ} (h : k < l.length) :
    l.getD k 0 ∈ l := by
  rw [List.getD_eq_getElem?_getD, List.getElem?_eq_getElem h]
  exact List.getElem_mem h

theorem stage_b_scores_length (est : String → ℕ) (embSim : String → ℕ → ℚ)
    (pr_text : String) (okr : OkrData) :
    (stage_b_scores est embSim pr_text okr).length =
      (stage_b_candidates pr_text okr).1.length := by
  simp [stage_b_scores, stage_b_max_sims]

/-- The best index reported by stage B always comes from the candidate
set it scored (when that set is non-empty). -/
theorem stage_b_best_mem (est : String → ℕ) (embSim : String → ℕ → ℚ)
    (pr_text : String) (okr : OkrData)
    (h : (stage_b_candidates pr_text okr).1 ≠ []) :
    (stage_b_enhanced_match est embSim pr_text okr).best_okr_idx ∈
      (stage_b_enhanced_match est embSim pr_text okr).candidates := by
  show (stage_b_candidates pr_text okr).1.getD
      (argmax_idx (stage_b_scores est embSim pr_text okr)) 0 ∈
      (stage_b_candidates pr_text okr).1
  have hslen := stage_b_scores_length est embSim pr_text okr
  have hs_ne : stage_b_scores est embSim pr_text okr ≠ [] := by
    intro hnil
    rw [hnil] at hslen
    exact h (List.length_eq_zero.mp hslen.symm)
  have hlt : argmax_idx (stage_b_scores est embSim pr_text okr) <
      (stage_b_candidates pr_text okr).1.length := by
    rw [← hslen]
    exact argmax_idx_lt_length hs_ne
  exact getD_nat_mem hlt

/-- C8: scoring is restricted to exactly the objectives whose acronym
set intersects the document's strong acronym set `S` (acronyms of
length at most 8) when `S` is non-empty and at least one objective
shares an acronym — with the `was_filtered` flag recorded — and covers
the full catalog otherwise; the matched index always comes from the
scored candidate set.  In particular, for the catalog
`["ESR migration rollout", "Cost reduction initiative"]` and the
document `"Implemented ESR failover retry logic"`, the candidate set
narrows to the first objective only. -/
theorem c8_acronym_pruning (est : String → ℕ) (embSim : String → ℕ → ℚ)
    (pr_text : String) (texts : List String) :
    ((stage_b_enhanced_match est embSim pr_text
        (precompute_okr_data texts)).candidates =
      if (spec_strong_acronyms pr_text).Nonempty ∧
          spec_acronym_hits pr_text texts ≠ []
      then spec_acronym_hits pr_text texts
      else List.range texts.length) ∧
    ((stage_b_enhanced_match est embSim pr_text
        (precompute_okr_data texts)).was_filtered =
      decide ((spec_strong_acronyms pr_text).Nonempty ∧
        spec_acronym_hits pr_text texts ≠ [])) ∧
    (texts = [] ∨
      (stage_b_enhanced_match est embSim pr_text
          (precompute_okr_data texts)).best_okr_idx ∈
        (stage_b_enhanced_match est embSim pr_text
          (precompute_okr_data texts)).candidates) ∧
    (stage_b_candidates "Implemented ESR failover retry logic"
        (precompute_okr_data
          ["ESR migration rollout", "Cost reduction initiative"]) =
      ([0], true)) ∧
    (stage_b_enhanced_match est embSim "Implemented ESR failover retry logic"
        (precompute_okr_data
          ["ESR migration rollout", "Cost reduction initiative"])).best_okr_idx
      = 0 := by
  have hspec := stage_b_candidates_spec pr_text texts
  refine ⟨?_, ?_, ?_, ?_, ?_⟩
  · show (stage_b_candidates pr_text (precompute_okr_data texts)).1 = _
    rw [hspec]
  · show (stage_b_candidates pr_text (precompute_okr_data texts)).2 = _
    rw [hspec]
  · by_cases ht : texts = []
    · exact Or.inl ht
    · refine Or.inr (stage_b_best_mem est embSim pr_text
        (precompute_okr_data texts) ?_)
      rw [hspec]
      by_cases hcond : (spec_strong_acronyms pr_text).Nonempty ∧
          spec_acronym_hits pr_text texts ≠ []
      · simpa [if_pos hcond] using hcond.2
      · rw [if_neg hcond]
        simp only [ne_eq, List.range_eq_nil]
        exact fun hzero => ht (List.length_eq_zero.mp hzero)
  · decide
  · have hc : (stage_b_enhanced_match est embSim
        "Implemented ESR failover retry logic"
        (precompute_okr_data
          ["ESR migration rollout", "Cost reduction initiative"])).candidates
        = [0] := by
      show (stage_b_candidates "Implemented ESR failover retry logic"
        (precompute_okr_data
          ["ESR migration rollout", "Cost reduction initiative"])).1 = [0]
      decide
    have hmem := stage_b_best_mem est embSim
      "Implemented ESR failover retry logic"
      (precompute_okr_data
        ["ESR migration rollout", "Cost reduction initiative"])
      (by decide)
    rw [hc] at hmem
    exact List.mem_singleton.mp hmem

/-! ## Chunking lemmas (C4, C10) -/

theorem chunk_text_go_length_le (t : List Char) (cs ov : ℕ) :
    ∀ (fuel i : ℕ), (chunk_text_go t cs ov fuel i).length ≤ fuel := by
  intro fuel
  induction fuel with
  | zero => intro i; simp [chunk_text_go]
  | succ n ih =>
    intro i
    unfold chunk_text_go
    by_cases h : i < t.length
    · rw [if_pos h]
      simp only [List.length_cons]
      exact Nat.succ_le_succ (ih _)
    · rw [if_neg h]; simp

theorem chunk_text_go_mem (t : List Char) (cs ov : ℕ) :
    ∀ (fuel i : ℕ), ∀ r ∈ chunk_text_go t cs ov fuel i,
      ∃ i', i' < t.length ∧ r = (t.drop i').take cs := by
  intro fuel
  induction fuel with
  | zero => intro i r hr; simp [chunk_text_go] at hr
  | succ n ih =>
    intro i r hr
    unfold chunk_text_go at hr
    by_cases h : i < t.length
    · rw [if_pos h] at hr
      rcases List.mem_cons.mp hr with h1 | h2
      · exact ⟨i, h, h1⟩
      · exact ih _ r h2
    · rw [if_neg h] at hr; cases hr

theorem chunk_text_go_getD (t : List Char) (cs ov : ℕ) :
    ∀ (fuel i k : ℕ), k < (chunk_text_go t cs ov fuel i).length →
      (chunk_text_go t cs ov fuel i).getD k [] =
        (t.drop (i + k * (cs - ov))).take cs := by
  intro fuel
  induction fuel with
  | zero => intro i k h; simp [chunk_text_go] at h
  | succ n ih =>
    intro i k h
    unfold chunk_text_go at h ⊢
    by_cases hi : i < t.length
    · rw [if_pos hi] at h ⊢
      cases k with
      | zero => simp
      | succ k' =>
        rw [List.getD_cons_succ, ih (i + (cs - ov)) k' (by simpa using h)]
        have harith : i + (cs - ov) + k' * (cs - ov) = i + (k' + 1) * (cs - ov) := by
          rw [Nat.succ_mul]; ring
        rw [harith]
    · rw [if_neg hi] at h; simp at h

theorem chunk_text_go_two (t : List Char) (cs ov fuel : ℕ) (hf : 2 ≤ fuel)
    (h1 : 0 < t.length) (h2 : cs - ov < t.length) :
    2 ≤ (chunk_text_go t cs ov fuel 0).length := by
  obtain ⟨n, rfl⟩ : ∃ n, fuel = n + 2 := ⟨fuel - 2, by omega⟩
  unfold chunk_text_go
  rw [if_pos h1]
  unfold chunk_text_go
  rw [if_pos (show 0 + (cs - ov) < t.length by omega)]
  simp only [List.length_cons]
  omega

theorem string_length_mk (l : List Char) : (String.mk l).length = l.length := rfl

theorem string_toList_length (s : String) : s.toList.length = s.length := rfl

theorem estimate_tokens_chars_def (s : String) :
    estimate_tokens_chars s = s.length / 4 := rfl

theorem get_pr_embeddings_texts_def (est : String → ℕ) (pr_text : String) :
    get_pr_embeddings_with_chunking_texts est pr_text =
      if est pr_text ≤ 8000 then [String.mk (pr_text.toList.take 30000)]
      else chunk_text pr_text 7000 300 4 := rfl

theorem chunk_text_def (text : String) (cs ov mc : ℕ) :
    chunk_text text cs ov mc =
      if text.length ≤ cs then [text]
      else (chunk_text_go text.toList cs ov mc 0).map String.mk := rfl

theorem getD_map_mk (L : List (List Char)) (k : ℕ) (hk : k < L.length) :
    (L.map String.mk).getD k "" = String.mk (L.getD k []) := by
  rw [List.getD_eq_getElem?_getD, List.getD_eq_getElem?_getD,
    List.getElem?_map, List.getElem?_eq_getElem hk]
  rfl

/-- C10: `chunk_text` always terminates with between 1 and `max_chunks`
chunks (for a positive chunk budget and chunk size), each of length at
most `chunk_size` characters; a text of at most `chunk_size` characters
yields exactly the singleton chunk equal to the text, and a longer text
yields only non-empty chunks.  (Termination is structural here: the
recursion fuel is the remaining chunk budget, exactly the
`len(chunks) < max_chunks` loop bound of the source.) -/
theorem c10_chunk_text_bounds (text : String) (cs ov mc : ℕ)
    (hmc : 1 ≤ mc) (hcs : 1 ≤ cs) :
    1 ≤ (chunk_text text cs ov mc).length ∧
    (chunk_text text cs ov mc).length ≤ mc ∧
    (∀ c ∈ chunk_text text cs ov mc, c.length ≤ cs) ∧
    (text.length ≤ cs → chunk_text text cs ov mc = [text]) ∧
    (cs < text.length → ∀ c ∈ chunk_text text cs ov mc, c ≠ "") := by
  have htl : text.toList.length = text.length := rfl
  unfold chunk_text
  by_cases hshort : text.length ≤ cs
  · rw [if_pos hshort]
    refine ⟨by simp, by simpa using hmc, ?_, fun _ => rfl,
      fun hlong => absurd hshort (by omega)⟩
    intro c hc
    rw [List.mem_singleton.mp hc]
    exact hshort
  · rw [if_neg hshort]
    have hpos : 0 < text.toList.length := by omega
    refine ⟨?_, ?_, ?_, fun hc => absurd hc hshort, ?_⟩
    · rw [List.length_map]
      rcases Nat.exists_eq_add_of_le hmc with ⟨n, hn⟩
      subst hn
      rw [Nat.add_comm 1 n]
      unfold chunk_text_go
      rw [if_pos hpos]
      simp
    · rw [List.length_map]
      exact chunk_text_go_length_le text.toList cs ov mc 0
    · intro c hc
      rcases List.mem_map.mp hc with ⟨r, hr, hrc⟩
      rcases chunk_text_go_mem text.toList cs ov mc 0 r hr with ⟨i', hi', hri⟩
      rw [← hrc, hri]
      show ((text.toList.drop i').take cs).length ≤ cs
      rw [List.length_take]
      exact min_le_left _ _
    · intro hlong c hc
      rcases List.mem_map.mp hc with ⟨r, hr, hrc⟩
      rcases chunk_text_go_mem text.toList cs ov mc 0 r hr with ⟨i', hi', hri⟩
      rw [← hrc]
      intro heq
      have hdata : r = [] := congrArg String.data heq
      rw [hri] at hdata
      have hzero : ((text.toList.drop i').take cs).length = 0 := by
        rw [hdata]; rfl
      rw [List.length_take, List.length_drop] at hzero
      omega

/-- Witness for C10 at the source's default parameters. -/
theorem c10_chunk_text_bounds_witness :
    1 ≤ (chunk_text "hello world" 2500 300 8).length ∧
    (chunk_text "hello world" 2500 300 8).length ≤ 8 ∧
    chunk_text "hello world" 2500 300 8 = ["hello world"] :=
  ⟨(c10_chunk_text_bounds "hello world" 2500 300 8 (by norm_num)
      (by norm_num)).1,
   (c10_chunk_text_bounds "hello world" 2500 300 8 (by norm_num)
      (by norm_num)).2.1,
   (c10_chunk_text_bounds "hello world" 2500 300 8 (by norm_num)
      (by norm_num)).2.2.2.1 (by decide)⟩

/-- C4 (amended): when the estimated token count exceeds the 8000-token
limit, the embedding strategy splits the text into 2 to 4 overlapping
chunks of 7000 CHARACTERS each 6700 characters apart (i.e. with a
300-character overlap) — not the spec's "≈7000-token" windows, see the
counterexample — embeds each chunk, and the similarity used for every
scored candidate is the maximum cosine similarity across the chunks.
The hypothesis `est t ≤ t.length` holds for both token estimators of
the source: `len // 4`, and a BPE tokenizer which emits at most one
token per character. -/
theorem c4_chunked_embedding (est : String → ℕ) (embSim : String → ℕ → ℚ)
    (pr_text : String) (okr : OkrData)
    (hest : ∀ t, est t ≤ t.length) (h : 8000 < est pr_text) :
    2 ≤ (get_pr_embeddings_with_chunking_texts est pr_text).length ∧
    (get_pr_embeddings_with_chunking_texts est pr_text).length ≤ 4 ∧
    (∀ k, k < (get_pr_embeddings_with_chunking_texts est pr_text).length →
      (get_pr_embeddings_with_chunking_texts est pr_text).getD k "" =
        String.mk ((pr_text.toList.drop (k * 6700)).take 7000)) ∧
    (stage_b_enhanced_match est embSim pr_text okr).sims =
      (stage_b_enhanced_match est embSim pr_text okr).candidates.map
        (fun j => listMax ((get_pr_embeddings_with_chunking_texts est pr_text).map
          (fun c => embSim c j))) := by
  have hlen : 8000 < pr_text.length := lt_of_lt_of_le h (hest pr_text)
  have htl : pr_text.toList.length = pr_text.length := rfl
  have hchunks : get_pr_embeddings_with_chunking_texts est pr_text =
      (chunk_text_go pr_text.toList 7000 300 4 0).map String.mk := by
    rw [get_pr_embeddings_texts_def, if_neg (by omega), chunk_text_def,
      if_neg (by omega)]
  refine ⟨?_, ?_, ?_, rfl⟩
  · rw [hchunks, List.length_map]
    exact chunk_text_go_two pr_text.toList 7000 300 4 (by omega) (by omega)
      (by omega)
  · rw [hchunks, List.length_map]
    exact chunk_text_go_length_le pr_text.toList 7000 300 4 0
  · intro k hk
    rw [hchunks] at hk ⊢
    rw [List.length_map] at hk
    rw [getD_map_mk _ k hk, chunk_text_go_getD pr_text.toList 7000 300 4 0 k hk]
    have harith : 0 + k * (7000 - 300) = k * 6700 := by norm_num
    rw [harith]

/-- A 33000-character document: its `len // 4` token estimate, 8250,
exceeds the 8000-token chunking limit. -/
def c4_big_text : String := String.mk (List.replicate 33000 'a')

/-- Witness for the amended C4 at a concrete oversized document. -/
theorem c4_chunked_embedding_witness :
    8000 < estimate_tokens_chars c4_big_text ∧
    2 ≤ (get_pr_embeddings_with_chunking_texts estimate_tokens_chars
        c4_big_text).length ∧
    (get_pr_embeddings_with_chunking_texts estimate_tokens_chars
        c4_big_text).length ≤ 4 ∧
    (get_pr_embeddings_with_chunking_texts estimate_tokens_chars
        c4_big_text).getD 1 "" =
      String.mk ((c4_big_text.toList.drop (1 * 6700)).take 7000) := by
  have hest : ∀ t : String, estimate_tokens_chars t ≤ t.length :=
    fun t => Nat.div_le_self _ _
  have hlen33 : c4_big_text.length = 33000 := by
    show (List.replicate 33000 'a').length = 33000
    exact List.length_replicate 33000 'a'
  have hbig : 8000 < estimate_tokens_chars c4_big_text := by
    rw [estimate_tokens_chars_def, hlen33]
    norm_num
  have hmain := c4_chunked_embedding estimate_tokens_chars (fun _ _ => 0)
    c4_big_text (precompute_okr_data ["x"]) hest hbig
  exact ⟨hbig, hmain.1, hmain.2.1, hmain.2.2.1 1 (by omega)⟩

/-- C4 counterexample: the chunks are 7000-character windows, which are
nowhere near "approximately 7000-token" windows — by the code's own
token estimate (`len // 4`) each chunk holds 1750 tokens, less than even
half of 7000. -/
theorem c4_counterexample :
    8000 < estimate_tokens_chars c4_big_text ∧
    2 ≤ (get_pr_embeddings_with_chunking_texts estimate_tokens_chars
        c4_big_text).length ∧
    estimate_tokens_chars ((get_pr_embeddings_with_chunking_texts
        estimate_tokens_chars c4_big_text).getD 0 "") = 1750 ∧
    ¬ 3500 ≤ estimate_tokens_chars ((get_pr_embeddings_with_chunking_texts
        estimate_tokens_chars c4_big_text).getD 0 "") := by
  have hlen33 : c4_big_text.length = 33000 := by
    show (List.replicate 33000 'a').length = 33000
    exact List.length_replicate 33000 'a'
  have htl : c4_big_text.toList.length = 33000 := by
    rw [string_toList_length]
    exact hlen33
  have hbig : 8000 < estimate_tokens_chars c4_big_text := by
    rw [estimate_tokens_chars_def, hlen33]
    norm_num
  have hchunks : get_pr_embeddings_with_chunking_texts estimate_tokens_chars
      c4_big_text = (chunk_text_go c4_big_text.toList 7000 300 4 0).map String.mk := by
    rw [get_pr_embeddings_texts_def, if_neg (by omega), chunk_text_def,
      if_neg (by omega)]
  have hlen2 : 2 ≤ (chunk_text_go c4_big_text.toList 7000 300 4 0).length :=
    chunk_text_go_two c4_big_text.toList 7000 300 4 (by omega) (by omega)
      (by omega)
  have hgetd : (get_pr_embeddings_with_chunking_texts estimate_tokens_chars
      c4_big_text).getD 0 "" =
      String.mk ((c4_big_text.toList.drop 0).take 7000) := by
    rw [hchunks, getD_map_mk _ 0 (by omega),
      chunk_text_go_getD c4_big_text.toList 7000 300 4 0 0 (by omega)]
  have hflen : ((c4_big_text.toList.drop 0).take 7000).length = 7000 := by
    rw [List.length_take, List.length_drop, htl]
    omega
  have hest1750 : estimate_tokens_chars ((get_pr_embeddings_with_chunking_texts
      estimate_tokens_chars c4_big_text).getD 0 "") = 1750 := by
    rw [hgetd, estimate_tokens_chars_def, string_length_mk, hflen]
  refine ⟨hbig, ?_, hest1750, by rw [hest1750]; norm_num⟩
  rw [hchunks, List.length_map]
  exact hlen2

/-! ## Failure persistence (C5) -/

/-- The ways a document's classification attempt can fail inside
`map_okrs_for_pr_with_classification`: the text cannot be loaded, the
text is unusable (empty or shorter than 10 characters), or the
classification call raises (e.g. a provider error). -/
def map_classification_failure (load_pr_text : Except Unit String)
    (classify : String → Except Unit Classification) : Prop :=
  match load_pr_text with
  | Except.error _ => True
  | Except.ok t => (t = "" ∨ t.length < 10) ∨ classify t = Except.error ()

/-- C5 (amended): for every document whose classification attempt fails,
NO MatchResult is persisted — the wrapper returns `success = false` and
writes nothing, so the document is absent from MatchResult reporting
(contrary to the original claim that a low-confidence fallback record is
still persisted; see the counterexample). -/
theorem c5_failed_documents_not_persisted
    (load_pr_text : Except Unit String)
    (classify : String → Except Unit Classification)
    (h : map_classification_failure load_pr_text classify) :
    (map_okrs_for_pr_with_classification load_pr_text classify).1.success
      = false ∧
    (map_okrs_for_pr_with_classification load_pr_text classify).2 = none := by
  unfold map_classification_failure at h
  cases load_pr_text with
  | error e => exact ⟨rfl, rfl⟩
  | ok t =>
    simp only [map_okrs_for_pr_with_classification]
    rcases h with h1 | h2
    · rw [if_pos h1]
      exact ⟨rfl, rfl⟩
    · by_cases hshort : t = "" ∨ t.length < 10
      · rw [if_pos hshort]
        exact ⟨rfl, rfl⟩
      · rw [if_neg hshort, h2]
        exact ⟨rfl, rfl⟩

/-- Witness for the amended C5 at a concrete input (load failure). -/
theorem c5_failed_documents_not_persisted_witness :
    (map_okrs_for_pr_with_classification (Except.error ())
        (fun _ => Except.error ())).1.success = false ∧
    (map_okrs_for_pr_with_classification (Except.error ())
        (fun _ => Except.error ())).2 = none :=
  c5_failed_documents_not_persisted (Except.error ())
    (fun _ => Except.error ()) trivial

/-- C5 counterexample: a usable document (length at least 10) whose
classification attempt fails with a provider error has NO record
persisted at all — the persisted slot is `none`, refuting "a MatchResult
is still persisted for that document, tagged as a low-confidence
fallback". -/
theorem c5_counterexample :
    ¬ ("Fix race condition in retry logic" = "" ∨
       ("Fix race condition in retry logic" : String).length < 10) ∧
    (map_okrs_for_pr_with_classification
        (Except.ok "Fix race condition in retry logic")
        (fun _ => Except.error ())).1.success = false ∧
    (map_okrs_for_pr_with_classification
        (Except.ok "Fix race condition in retry logic")
        (fun _ => Except.error ())).2 = none := by
  refine ⟨by decide, ?_, ?_⟩ <;>
  · simp only [map_okrs_for_pr_with_classification]
    rw [if_neg (by decide)]

/-- C3 counterexample: with unit cosine similarity, full keyword
overlap and two shared acronyms on the best candidate (score
`0.88 + 0.12 + 0.16 = 1.16`), and a `-1`-similarity runner-up (score
`-0.776`), the accepted result reports `confidence = 1.16 > 1` and
`margin = 1.936 > 1`, refuting `margin ∈ [0,1] ∧ confidence ∈ [0,1]`. -/
theorem c3_counterexample :
    1 < ((classify_one_pr estimate_tokens_chars
        (fun _ j => match j with | 0 => (1 : ℚ) | _ + 1 => -1) none
        "QQQ ABC alpha beta gamma"
        (precompute_okr_data ["QQQ ABC alpha beta gamma", "QQQ"])
        B_SCORE_THRESHOLD B_MARGIN_THRESHOLD).1).confidence ∧
    1 < ((classify_one_pr estimate_tokens_chars
        (fun _ j => match j with | 0 => (1 : ℚ) | _ + 1 => -1) none
        "QQQ ABC alpha beta gamma"
        (precompute_okr_data ["QQQ ABC alpha beta gamma", "QQQ"])
        B_SCORE_THRESHOLD B_MARGIN_THRESHOLD).1).margin := by
  have h_cand : stage_b_candidates "QQQ ABC alpha beta gamma"
      (precompute_okr_data ["QQQ ABC alpha beta gamma", "QQQ"]) =
      ([0, 1], true) := by decide
  have h_chunks : get_pr_embeddings_with_chunking_texts estimate_tokens_chars
      "QQQ ABC alpha beta gamma" = ["QQQ ABC alpha beta gamma"] := by decide
  have hs0 : hybrid_score 1 (tokenize_words "QQQ ABC alpha beta gamma")
      ((precompute_okr_data ["QQQ ABC alpha beta gamma", "QQQ"]).okr_keywords.getD 0 ∅)
      ((extract_acronyms "QQQ ABC alpha beta gamma" ∩
        (precompute_okr_data ["QQQ ABC alpha beta gamma", "QQQ"]).okr_acronyms.getD 0 ∅).card)
      = 29/25 := by
    rw [show ((extract_acronyms "QQQ ABC alpha beta gamma" ∩
      (precompute_okr_data ["QQQ ABC alpha beta gamma", "QQQ"]).okr_acronyms.getD 0 ∅).card)
      = 2 from by decide]
    simp only [hybrid_score, jaccardQ]
    rw [if_neg (by decide)]
    rw [show ((tokenize_words "QQQ ABC alpha beta gamma" ∩
      (precompute_okr_data ["QQQ ABC alpha beta gamma", "QQQ"]).okr_keywords.getD 0 ∅).card)
      = 5 from by decide]
    rw [show (max 1 ((tokenize_words "QQQ ABC alpha beta gamma" ∪
      (precompute_okr_data ["QQQ ABC alpha beta gamma", "QQQ"]).okr_keywords.getD 0 ∅).card))
      = 5 from by decide]
    norm_num [EMBED_WEIGHT, LEXICAL_WEIGHT, ACRONYM_BOOST_PER_MATCH,
      ACRONYM_BOOST_MAX, min_def]
  have hs1 : hybrid_score (-1) (tokenize_words "QQQ ABC alpha beta gamma")
      ((precompute_okr_data ["QQQ ABC alpha beta gamma", "QQQ"]).okr_keywords.getD 1 ∅)
      ((extract_acronyms "QQQ ABC alpha beta gamma" ∩
        (precompute_okr_data ["QQQ ABC alpha beta gamma", "QQQ"]).okr_acronyms.getD 1 ∅).card)
      = -97/125 := by
    rw [show ((extract_acronyms "QQQ ABC alpha beta gamma" ∩
      (precompute_okr_data ["QQQ ABC alpha beta gamma", "QQQ"]).okr_acronyms.getD 1 ∅).card)
      = 1 from by decide]
    simp only [hybrid_score, jaccardQ]
    rw [if_neg (by decide)]
    rw [show ((tokenize_words "QQQ ABC alpha beta gamma" ∩
      (precompute_okr_data ["QQQ ABC alpha beta gamma", "QQQ"]).okr_keywords.getD 1 ∅).card)
      = 1 from by decide]
    rw [show (max 1 ((tokenize_words "QQQ ABC alpha beta gamma" ∪
      (precompute_okr_data ["QQQ ABC alpha beta gamma", "QQQ"]).okr_keywords.getD 1 ∅).card))
      = 5 from by decide]
    norm_num [EMBED_WEIGHT, LEXICAL_WEIGHT, ACRONYM_BOOST_PER_MATCH,
      ACRONYM_BOOST_MAX, min_def]
  have h_scores : stage_b_scores estimate_tokens_chars
      (fun _ j => match j with | 0 => (1 : ℚ) | _ + 1 => -1)
      "QQQ ABC alpha beta gamma"
      (precompute_okr_data ["QQQ ABC alpha beta gamma", "QQQ"]) =
      [29/25, -97/125] := by
    simp only [stage_b_scores, stage_b_max_sims]
    rw [h_cand, h_chunks]
    dsimp only [List.map, List.zip, List.zipWith, listMax, List.foldl]
    rw [hs0, hs1]
  have hidx : ([29/25, -97/125] : List ℚ).getD
      (argmax_idx [29/25, -97/125]) 0 = 29/25 := by
    simp only [argmax_idx, argmax_go]
    norm_num
  have h_best : (stage_b_enhanced_match estimate_tokens_chars
      (fun _ j => match j with | 0 => (1 : ℚ) | _ + 1 => -1)
      "QQQ ABC alpha beta gamma"
      (precompute_okr_data ["QQQ ABC alpha beta gamma", "QQQ"])).best_score
      = 29/25 := by
    show (stage_b_scores estimate_tokens_chars
      (fun _ j => match j with | 0 => (1 : ℚ) | _ + 1 => -1)
      "QQQ ABC alpha beta gamma"
      (precompute_okr_data ["QQQ ABC alpha beta gamma", "QQQ"])).getD
      (argmax_idx (stage_b_scores estimate_tokens_chars
        (fun _ j => match j with | 0 => (1 : ℚ) | _ + 1 => -1)
        "QQQ ABC alpha beta gamma"
        (precompute_okr_data ["QQQ ABC alpha beta gamma", "QQQ"]))) 0 = 29/25
    rw [h_scores]
    exact hidx
  have hm2 : stage_b_margin [29/25, -97/125] (29/25) = 242/125 := by
    simp only [stage_b_margin]
    rw [if_pos (by norm_num), List.erase_cons_head]
    simp only [listMax, List.foldl_nil]
    norm_num
  have h_margin : (stage_b_enhanced_match estimate_tokens_chars
      (fun _ j => match j with | 0 => (1 : ℚ) | _ + 1 => -1)
      "QQQ ABC alpha beta gamma"
      (precompute_okr_data ["QQQ ABC alpha beta gamma", "QQQ"])).margin
      = 242/125 := by
    show stage_b_margin (stage_b_scores estimate_tokens_chars
      (fun _ j => match j with | 0 => (1 : ℚ) | _ + 1 => -1)
      "QQQ ABC alpha beta gamma"
      (precompute_okr_data ["QQQ ABC alpha beta gamma", "QQQ"]))
      ((stage_b_scores estimate_tokens_chars
        (fun _ j => match j with | 0 => (1 : ℚ) | _ + 1 => -1)
        "QQQ ABC alpha beta gamma"
        (precompute_okr_data ["QQQ ABC alpha beta gamma", "QQQ"])).getD
        (argmax_idx (stage_b_scores estimate_tokens_chars
          (fun _ j => match j with | 0 => (1 : ℚ) | _ + 1 => -1)
          "QQQ ABC alpha beta gamma"
          (precompute_okr_data ["QQQ ABC alpha beta gamma", "QQQ"]))) 0)
      = 242/125
    rw [h_scores, hidx]
    exact hm2
  have hwhite : ¬ ("QQQ ABC alpha beta gamma".toList.all
      Char.isWhitespace = true) := by decide
  have hcond : B_SCORE_THRESHOLD ≤ (stage_b_enhanced_match
      estimate_tokens_chars
      (fun _ j => match j with | 0 => (1 : ℚ) | _ + 1 => -1)
      "QQQ ABC alpha beta gamma"
      (precompute_okr_data ["QQQ ABC alpha beta gamma", "QQQ"])).best_score ∧
      B_MARGIN_THRESHOLD ≤ (stage_b_enhanced_match estimate_tokens_chars
      (fun _ j => match j with | 0 => (1 : ℚ) | _ + 1 => -1)
      "QQQ ABC alpha beta gamma"
      (precompute_okr_data ["QQQ ABC alpha beta gamma", "QQQ"])).margin :=
    ⟨by rw [h_best]; norm_num [B_SCORE_THRESHOLD],
     by rw [h_margin]; norm_num [B_MARGIN_THRESHOLD]⟩
  have hconf : ((classify_one_pr estimate_tokens_chars
      (fun _ j => match j with | 0 => (1 : ℚ) | _ + 1 => -1) none
      "QQQ ABC alpha beta gamma"
      (precompute_okr_data ["QQQ ABC alpha beta gamma", "QQQ"])
      B_SCORE_THRESHOLD B_MARGIN_THRESHOLD).1).confidence =
      (stage_b_enhanced_match estimate_tokens_chars
      (fun _ j => match j with | 0 => (1 : ℚ) | _ + 1 => -1)
      "QQQ ABC alpha beta gamma"
      (precompute_okr_data ["QQQ ABC alpha beta gamma", "QQQ"])).best_score := by
    simp only [classify_one_pr]
    rw [if_neg hwhite, if_pos hcond]
  have hmarg : ((classify_one_pr estimate_tokens_chars
      (fun _ j => match j with | 0 => (1 : ℚ) | _ + 1 => -1) none
      "QQQ ABC alpha beta gamma"
      (precompute_okr_data ["QQQ ABC alpha beta gamma", "QQQ"])
      B_SCORE_THRESHOLD B_MARGIN_THRESHOLD).1).margin =
      (stage_b_enhanced_match estimate_tokens_chars
      (fun _ j => match j with | 0 => (1 : ℚ) | _ + 1 => -1)
      "QQQ ABC alpha beta gamma"
      (precompute_okr_data ["QQQ ABC alpha beta gamma", "QQQ"])).margin := by
    simp only [classify_one_pr]
    rw [if_neg hwhite, if_pos hcond]
  constructor
  · rw [hconf, h_best]
    norm_num
  · rw [hmarg, h_margin]
    norm_num

end PrOkrMapper
